import Mathlib

/-!
# Verification of the Quran API CLI tool's aggregation pipeline

A shallow embedding of the JavaScript CLI utility that downloads Quran
chapters from a REST API and merges five per-chapter JSON responses into
one normalized per-verse document.

The network fetches, console logging and sleeps are impure; here the five
responses are passed in as values (or supplied by `Except`-valued oracles
for the fallible variants), and `buildSurahData` is embedded as the pure
function from the five responses to the output document, mirroring the
source line by line.
-/

namespace QuranCLI

/-- `TRANSLATION_IDS` from the source configuration block:
Indonesian = 33, English = 20. -/
structure TranslationIds where
  indonesian : Nat
  english : Nat
deriving Repr, DecidableEq

def TRANSLATION_IDS : TranslationIds :=
  { indonesian := 33, english := 20 }

/-! ## Raw API response shapes

JSON fields that the code accesses with optional chaining (`?.`) or that
may be absent are modelled as `Option`; fields read unconditionally are
plain. -/

/-- The `translation` object attached to a word
(`w.translation?.text`, `w.translation?.language_name`). -/
structure WordTranslationMeta where
  text : Option String
  language_name : Option String
deriving Repr, DecidableEq

/-- The `transliteration` object attached to a word
(`w.transliteration?.text`). -/
structure WordTransliteration where
  text : Option String
deriving Repr, DecidableEq

/-- One token of a word-enriched verse, as returned by
`/verses/by_chapter`. `char_type_name` distinguishes word tokens from
punctuation / pause markers. -/
structure ApiWord where
  position : Nat
  char_type_name : String
  code_v1 : Option String
  text : Option String
  audio_url : Option String
  translation : Option WordTranslationMeta
  transliteration : Option WordTransliteration
deriving Repr, DecidableEq

/-- One entry of a verse's `translations` array: a full-translation text
keyed by the translation resource id. -/
structure TranslationEntry where
  resource_id : Nat
  text : String
deriving Repr, DecidableEq

/-- A word-enriched verse from `/verses/by_chapter`. -/
structure ApiVerse where
  id : Nat
  verse_number : Nat
  verse_key : String
  juz_number : Nat
  hizb_number : Nat
  rub_el_hizb_number : Nat
  manzil_number : Nat
  ruku_number : Nat
  page_number : Nat
  sajdah_number : Option Nat
  words : Option (List ApiWord)
  translations : Option (List TranslationEntry)
deriving Repr, DecidableEq

/-- A verse fragment from `/quran/verses/uthmani`. -/
structure UthmaniVerse where
  text_uthmani : Option String
deriving Repr, DecidableEq

/-- A verse fragment from `/quran/verses/imlaei`. -/
structure ImlaeiVerse where
  text_imlaei : Option String
deriving Repr, DecidableEq

/-- A verse fragment from `/quran/verses/uthmani_tajweed`. -/
structure TajweedVerse where
  text_uthmani_tajweed : Option String
deriving Repr, DecidableEq

/-- Response of `/verses/by_chapter`: the `verses` field may be absent
(the code unwraps it with `|| []`). -/
structure VersesResponse where
  verses : Option (List ApiVerse)
deriving Repr, DecidableEq

/-- Response of `/quran/verses/uthmani`. -/
structure UthmaniResponse where
  verses : Option (List UthmaniVerse)
deriving Repr, DecidableEq

/-- Response of `/quran/verses/imlaei`. -/
structure ImlaeiResponse where
  verses : Option (List ImlaeiVerse)
deriving Repr, DecidableEq

/-- Response of `/quran/verses/uthmani_tajweed`. -/
structure TajweedResponse where
  verses : Option (List TajweedVerse)
deriving Repr, DecidableEq

/-- Chapter metadata from `/chapters` (the fields the tool reads). -/
structure Chapter where
  id : Nat
  name_simple : String
  name_complex : String
  name_arabic : String
  translated_name : String
  revelation_place : String
  revelation_order : Nat
  bismillah_pre : Bool
  verses_count : Nat
  pages : List Nat
deriving Repr, DecidableEq

/-! ## Output document shapes -/

/-- The `translation` object of an output word segment. -/
structure SegTranslation where
  text : String
  language : String
deriving Repr, DecidableEq

/-- One word of the output `words.en` / `words.id` arrays. -/
structure WordSegment where
  position : Nat
  text_code : Option String
  audio_url : Option String
  translation : SegTranslation
  transliteration : String
deriving Repr, DecidableEq

/-- One normalized verse record of the output `ayahs` array. -/
structure Ayah where
  id : Nat
  verse_number : Nat
  verse_key : String
  juz_number : Nat
  hizb_number : Nat
  rub_el_hizb_number : Nat
  manzil_number : Nat
  ruku_number : Nat
  page_number : Nat
  sajdah_number : Option Nat
  text_arabic_simple : String
  text_arabic_uthmani : String
  text_arabic_tajweed : String
  words_en : List WordSegment
  words_id : List WordSegment
  translations_en : String
  translations_id : String
deriving Repr, DecidableEq

/-- The output `stats` block. -/
structure SurahStats where
  total_ayahs : Nat
  total_words_en : Nat
  total_words_id : Nat
deriving Repr, DecidableEq

/-- The output `surah` block (copied from the Chapter). -/
structure SurahInfo where
  id : Nat
  name_simple : String
  name_complex : String
  name_arabic : String
  translated_name : String
  revelation_place : String
  revelation_order : Nat
  bismillah_pre : Bool
  verses_count : Nat
  pages : List Nat
deriving Repr, DecidableEq

/-- The per-chapter output document. The `meta` block's timestamp is
impure and carries no verified content, so `meta` keeps only the base
URL and the translation-id mapping. -/
structure SurahDocument where
  base_url : String
  translation_ids : TranslationIds
  surah : SurahInfo
  ayahs : List Ayah
  stats : SurahStats
deriving Repr, DecidableEq

/-! ## Helper functions -/

/-- JavaScript `a || b` on two possibly-absent strings: an absent or
empty (falsy) `a` yields `b`. Used for `w.code_v1 || w.text`. -/
def jsOrStr (a b : Option String) : Option String :=
  match a with
  | some s => if s = "" then b else some s
  | none => b

/-- `w.translation?.text || ''`: optional chaining then defaulting to the
empty string (an empty string maps to itself, so `getD ""` is exact). -/
def optText (t : Option WordTranslationMeta) : String :=
  (t.bind (fun m => m.text)).getD ""

/-- `w.transliteration?.text || ''`. -/
def optTranslit (t : Option WordTransliteration) : String :=
  (t.bind (fun m => m.text)).getD ""

/-- The mapping applied to each retained English word
(source lines 232-241). -/
def mkWordSegEn (w : ApiWord) : WordSegment :=
  { position := w.position
    text_code := jsOrStr w.code_v1 w.text
    audio_url := w.audio_url
    translation := { text := optText w.translation, language := "en" }
    transliteration := optTranslit w.transliteration }

/-- The language metadata of a word, `w.translation?.language_name`. -/
def wordLangName (w : ApiWord) : Option String :=
  w.translation.bind (fun m => m.language_name)

/-- The mapping applied to each retained Indonesian word (source lines
245-254): identical to `mkWordSegEn` except the language tag, which is
`"id"` exactly when `w.translation?.language_name === 'indonesian'`. -/
def mkWordSegId (w : ApiWord) : WordSegment :=
  { position := w.position
    text_code := jsOrStr w.code_v1 w.text
    audio_url := w.audio_url
    translation :=
      { text := optText w.translation
        language := if wordLangName w = some "indonesian" then "id" else "en" }
    transliteration := optTranslit w.transliteration }

/-- `(verse.words || []).filter(w => w.char_type_name === 'word').map(...)`
for the English branch. -/
def wordsEnOf (v : ApiVerse) : List WordSegment :=
  ((v.words.getD []).filter (fun w => w.char_type_name == "word")).map mkWordSegEn

/-- The same for the Indonesian branch. -/
def wordsIdOf (v : ApiVerse) : List WordSegment :=
  ((v.words.getD []).filter (fun w => w.char_type_name == "word")).map mkWordSegId

/-- Full-translation extraction (source lines 257-259):
`verseEn.translations || []` scanned with `.find` for a resource id. -/
def findTranslation (v : ApiVerse) (rid : Nat) : Option TranslationEntry :=
  (v.translations.getD []).find? (fun t => t.resource_id == rid)

/-- One iteration of the aggregation loop (source lines 222-291): builds
the Ayah at index `i` from the primary verse and the four fragments at
the same index (each possibly absent). -/
def mkAyah (verseEn : ApiVerse) (verseIdOpt : Option ApiVerse)
    (uthmani : Option UthmaniVerse) (imlaei : Option ImlaeiVerse)
    (tajweed : Option TajweedVerse) : Ayah :=
  let verseId := verseIdOpt.getD verseEn
  { id := verseEn.id
    verse_number := verseEn.verse_number
    verse_key := verseEn.verse_key
    juz_number := verseEn.juz_number
    hizb_number := verseEn.hizb_number
    rub_el_hizb_number := verseEn.rub_el_hizb_number
    manzil_number := verseEn.manzil_number
    ruku_number := verseEn.ruku_number
    page_number := verseEn.page_number
    sajdah_number := verseEn.sajdah_number
    text_arabic_simple := (imlaei.bind (fun v => v.text_imlaei)).getD ""
    text_arabic_uthmani := (uthmani.bind (fun v => v.text_uthmani)).getD ""
    text_arabic_tajweed := (tajweed.bind (fun v => v.text_uthmani_tajweed)).getD ""
    words_en := wordsEnOf verseEn
    words_id := wordsIdOf verseId
    translations_en := ((findTranslation verseEn TRANSLATION_IDS.english).map
      (fun t => t.text)).getD ""
    translations_id := ((findTranslation verseEn TRANSLATION_IDS.indonesian).map
      (fun t => t.text)).getD "" }

/-- The `for (let i = 0; i < versesEn.length; i++)` loop: walk the primary
array by index, looking the four other arrays up at the same index. -/
def buildAyahs (versesEn versesId : List ApiVerse)
    (uthmaniVerses : List UthmaniVerse) (imlaeiVerses : List ImlaeiVerse)
    (tajweedVerses : List TajweedVerse) : List Ayah :=
  versesEn.mapIdx (fun i verseEn =>
    mkAyah verseEn versesId[i]? uthmaniVerses[i]? imlaeiVerses[i]? tajweedVerses[i]?)

/-- Pure core of `buildSurahData` (source lines 180-328), taking the five
already-fetched responses. Each response is unwrapped with `|| []`. -/
def buildSurahData (baseUrl : String) (chapter : Chapter)
    (uthmaniData : UthmaniResponse) (imlaeiData : ImlaeiResponse)
    (tajweedData : TajweedResponse)
    (versesEnData versesIdData : VersesResponse) : SurahDocument :=
  let versesEn := versesEnData.verses.getD []
  let versesId := versesIdData.verses.getD []
  let uthmaniVerses := uthmaniData.verses.getD []
  let imlaeiVerses := imlaeiData.verses.getD []
  let tajweedVerses := tajweedData.verses.getD []
  let ayahs := buildAyahs versesEn versesId uthmaniVerses imlaeiVerses tajweedVerses
  { base_url := baseUrl
    translation_ids := TRANSLATION_IDS
    surah :=
      { id := chapter.id
        name_simple := chapter.name_simple
        name_complex := chapter.name_complex
        name_arabic := chapter.name_arabic
        translated_name := chapter.translated_name
        revelation_place := chapter.revelation_place
        revelation_order := chapter.revelation_order
        bismillah_pre := chapter.bismillah_pre
        verses_count := chapter.verses_count
        pages := chapter.pages }
    ayahs := ayahs
    stats :=
      { total_ayahs := ayahs.length
        total_words_en := ayahs.foldl (fun sum a => sum + a.words_en.length) 0
        total_words_id := ayahs.foldl (fun sum a => sum + a.words_id.length) 0 } }

/-! ## Filenames (source lines 111-117 and 351-356) -/

/-- Lower-case one character. On ASCII this matches JavaScript
`toLowerCase`; non-ASCII letters differ only in which non-`[a-z0-9]`
character they become, and every such character is replaced by `'-'` in
the next step, so the composed pipeline agrees with the source. -/
def jsToLower (s : String) : String := String.mk (s.data.map Char.toLower)

/-- Whether `c` survives the `[^a-z0-9]` character class after
lower-casing. -/
def isSlugChar (c : Char) : Bool :=
  (('a' ≤ c) && (c ≤ 'z')) || (('0' ≤ c) && (c ≤ '9'))

/-- The first replace of `sanitizeFilename`: every character outside
`a-z0-9` becomes a hyphen. -/
def replaceNonAlnum (s : String) : String :=
  String.mk (s.data.map (fun c => if isSlugChar c then c else '-'))

/-- The second replace of `sanitizeFilename`: collapse each maximal run
of hyphens to a single hyphen (regex `-+`, global). -/
def collapseDashes : List Char → List Char
  | [] => []
  | [c] => [c]
  | c :: d :: rest =>
    if c = '-' && d = '-' then collapseDashes (d :: rest)
    else c :: collapseDashes (d :: rest)

/-- One anchor of the third replace: drop a single leading hyphen. -/
def dropLeadingDash : List Char → List Char
  | [] => []
  | c :: rest => if c = '-' then rest else c :: rest

/-- The third replace of `sanitizeFilename`: remove one leading and one
trailing hyphen (the anchored regex matches a single hyphen at each
end; the trailing anchor is the leading anchor on the reversal). -/
def trimDashes (cs : List Char) : List Char :=
  (dropLeadingDash (dropLeadingDash cs).reverse).reverse

/-- `sanitizeFilename` (source lines 111-117). -/
def sanitizeFilename (name : String) : String :=
  String.mk (trimDashes (collapseDashes (replaceNonAlnum (jsToLower name)).data))

/-- JavaScript `String.prototype.padStart`. -/
def padStart (s : String) (targetLength : Nat) (padChar : Char) : String :=
  if targetLength ≤ s.length then s
  else String.mk (List.replicate (targetLength - s.length) padChar) ++ s

/-- The output filename built in `downloadSurah` / `downloadAllSurahs`:
zero-padded chapter id, hyphen, sanitized simple name, `.json`. -/
def surahFilename (chapterId : Nat) (nameSimple : String) : String :=
  padStart (toString chapterId) 3 '0' ++ "-" ++ sanitizeFilename nameSimple ++ ".json"

/-! ## Fetch client (source lines 76-99)

The transport and `JSON.parse` are platform primitives; they enter the
model as data: the transport outcome is a value of `TransportResult`,
and the JSON parser is a parameter `parse`. `fetchJSON` never consults
the HTTP status code — the response carries one in the model precisely
to show it is ignored. -/

/-- An HTTP response as the callback sees it: a status code and the body
chunks accumulated by the `data` events. -/
structure HttpResponse where
  status : Nat
  chunks : List String
deriving Repr, DecidableEq

/-- Outcome of the underlying `protocol.get`: either a transport error or
a response. -/
inductive TransportResult where
  | transportError (msg : String)
  | response (r : HttpResponse)
deriving Repr, DecidableEq

/-- `fetchJSON` (source lines 76-99): on transport error, reject with the
URL in the message; otherwise concatenate the chunks, parse, and resolve
with the parsed value or reject with URL and parse diagnostic. -/
def fetchJSON {α : Type} (parse : String → Except String α) (url : String)
    (t : TransportResult) : Except String α :=
  match t with
  | .transportError m => .error ("HTTP request failed for " ++ url ++ ": " ++ m)
  | .response r =>
    match parse (String.join r.chunks) with
    | .ok j => .ok j
    | .error e => .error ("Failed to parse JSON from " ++ url ++ ": " ++ e)

/-! ## Orchestration (source lines 337-401)

The five per-chapter fetches become `Except`-valued oracles; the file
write becomes an oracle too, since `fs.writeFileSync` can itself throw
and `downloadAllSurahs` catches that as well. The functions below return
the list of files actually written, so "no file is created" is a
statement about that list. -/

/-- The five per-chapter endpoints, as oracles indexed by chapter id.
`E` is the error type of a failed fetch. -/
structure Api (E : Type) where
  uthmani : Nat → Except E UthmaniResponse
  imlaei : Nat → Except E ImlaeiResponse
  tajweed : Nat → Except E TajweedResponse
  versesEn : Nat → Except E VersesResponse
  versesId : Nat → Except E VersesResponse

/-- Fallible `buildSurahData`: the five fetches in source order; the
first failure propagates and no document is built (source lines
180-212: each `await` rethrows). -/
def buildSurahDataE {E : Type} (api : Api E) (baseUrl : String)
    (chapter : Chapter) : Except E SurahDocument := do
  let uthmaniData ← api.uthmani chapter.id
  let imlaeiData ← api.imlaei chapter.id
  let tajweedData ← api.tajweed chapter.id
  let versesEnData ← api.versesEn chapter.id
  let versesIdData ← api.versesId chapter.id
  pure (buildSurahData baseUrl chapter uthmaniData imlaeiData tajweedData
    versesEnData versesIdData)

/-- A file on disk: chapter id it was written for, filename, content. -/
structure WrittenFile where
  chapterId : Nat
  filename : String
  content : SurahDocument
deriving DecidableEq

/-- The aggregate-then-write step shared by `downloadSurah` and the body
of the `downloadAllSurahs` loop: build the document, then write it under
the derived filename. `write` models `fs.writeFileSync`, which may throw. -/
def processChapter {E : Type} (api : Api E) (write : WrittenFile → Except E Unit)
    (baseUrl : String) (chapter : Chapter) : Except E WrittenFile := do
  let surahData ← buildSurahDataE api baseUrl chapter
  let f : WrittenFile :=
    { chapterId := chapter.id
      filename := surahFilename chapter.id chapter.name_simple
      content := surahData }
  write f
  pure f

/-- Files created by `downloadSurah` (source lines 337-364): a single
chapter, no catch — on failure nothing is written and the error
propagates. Returns the written files alongside the outcome. -/
def downloadSurahRun {E : Type} (api : Api E) (write : WrittenFile → Except E Unit)
    (baseUrl : String) (chapter : Chapter) :
    List WrittenFile × Except E WrittenFile :=
  match processChapter api write baseUrl chapter with
  | .ok f => ([f], .ok f)
  | .error e => ([], .error e)

/-- The `for (const chapter of chapters) { try ... catch }` loop of
`downloadAllSurahs` (source lines 378-398): each chapter's error is
caught and recorded; the loop always continues. Returns the files
written and the errors reported, each in encounter order. -/
def runBatch {E : Type} (api : Api E) (write : WrittenFile → Except E Unit)
    (baseUrl : String) : List Chapter → List WrittenFile × List E
  | [] => ([], [])
  | c :: rest =>
    let tail := runBatch api write baseUrl rest
    match processChapter api write baseUrl c with
    | .ok f => (f :: tail.1, tail.2)
    | .error e => (tail.1, e :: tail.2)

/-- `downloadAllSurahs` (source lines 369-401): filter the chapter list
to the closed interval `[startFrom, endAt]`, then run the loop. -/
def downloadAllSurahs {E : Type} (api : Api E) (write : WrittenFile → Except E Unit)
    (baseUrl : String) (chapters : List Chapter) (startFrom endAt : Nat) :
    List WrittenFile × List E :=
  let filtered := chapters.filter (fun c => decide (startFrom ≤ c.id) && decide (c.id ≤ endAt))
  runBatch api write baseUrl filtered

/-! ## Shared lemmas -/

theorem ayahs_of_buildSurahData (baseUrl : String) (chapter : Chapter)
    (u : UthmaniResponse) (im : ImlaeiResponse) (t : TajweedResponse)
    (vE vI : VersesResponse) :
    (buildSurahData baseUrl chapter u im t vE vI).ayahs =
      buildAyahs (vE.verses.getD []) (vI.verses.getD []) (u.verses.getD [])
        (im.verses.getD []) (t.verses.getD []) := rfl

theorem buildAyahs_length (versesEn versesId : List ApiVerse)
    (u : List UthmaniVerse) (im : List ImlaeiVerse) (t : List TajweedVerse) :
    (buildAyahs versesEn versesId u im t).length = versesEn.length :=
  List.length_mapIdx

theorem buildAyahs_getElem? (versesEn versesId : List ApiVerse)
    (u : List UthmaniVerse) (im : List ImlaeiVerse) (t : List TajweedVerse)
    (i : Nat) :
    (buildAyahs versesEn versesId u im t)[i]? =
      (versesEn[i]?).map (fun v => mkAyah v versesId[i]? u[i]? im[i]? t[i]?) := by
  simp [buildAyahs, List.getElem?_mapIdx]

theorem find?_of_first {α : Type} (p : α → Bool) (l₁ : List α) (e : α) (l₂ : List α)
    (h₁ : ∀ x ∈ l₁, p x = false) (he : p e = true) :
    (l₁ ++ e :: l₂).find? p = some e := by
  induction l₁ with
  | nil => simp [List.find?_cons_of_pos, he]
  | cons a l ih =>
    have ha : ¬ p a = true := by simp [h₁ a (by simp)]
    rw [List.cons_append, List.find?_cons_of_neg _ ha]
    exact ih (fun x hx => h₁ x (by simp [hx]))

/-! ## Concrete fixtures used by witnesses -/

/-- A minimal chapter fixture. -/
def chW : Chapter :=
  { id := 1, name_simple := "Al-Fatihah", name_complex := "Al-Fātiĥah"
    name_arabic := "الفاتحة", translated_name := "The Opener"
    revelation_place := "makkah", revelation_order := 5
    bismillah_pre := false, verses_count := 7, pages := [1] }

/-- A primary verse with no `words` and no `translations` field. -/
def verseW : ApiVerse :=
  { id := 1, verse_number := 1, verse_key := "1:1", juz_number := 1
    hizb_number := 1, rub_el_hizb_number := 1, manzil_number := 1
    ruku_number := 1, page_number := 1, sajdah_number := none
    words := none, translations := none }

/-! ## C1 -/

/-- C1: for every chapter, `buildSurahData` produces an `ayahs` sequence
whose length equals the length of the word-language-"en" fragment's
verse array (`versesEn`), even when the other four fragments' arrays are
shorter or their verse-array field is absent; the affected Arabic-text
fields then default to the empty string, an absent `words` field yields
an empty word list, and (being a total function) aggregation never
throws. -/
theorem c1_ayah_count_and_defaults (baseUrl : String) (chapter : Chapter)
    (u : UthmaniResponse) (im : ImlaeiResponse) (t : TajweedResponse)
    (vE vI : VersesResponse) :
    (buildSurahData baseUrl chapter u im t vE vI).ayahs.length =
      (vE.verses.getD []).length
    ∧ (∀ i a, (buildSurahData baseUrl chapter u im t vE vI).ayahs[i]? = some a →
        ((im.verses.getD []).length ≤ i → a.text_arabic_simple = "")
        ∧ ((u.verses.getD []).length ≤ i → a.text_arabic_uthmani = "")
        ∧ ((t.verses.getD []).length ≤ i → a.text_arabic_tajweed = "")
        ∧ (∀ v, (vE.verses.getD [])[i]? = some v → v.words = none →
            a.words_en = []))
    ∧ (vE.verses = none → (buildSurahData baseUrl chapter u im t vE vI).ayahs = []) := by
  refine ⟨?_, ?_, ?_⟩
  · rw [ayahs_of_buildSurahData, buildAyahs_length]
  · intro i a ha
    rw [ayahs_of_buildSurahData, buildAyahs_getElem?] at ha
    rcases hvE : (vE.verses.getD [])[i]? with _ | v
    · rw [hvE] at ha; simp at ha
    · rw [hvE] at ha
      simp only [Option.map_some', Option.some.injEq] at ha
      subst ha
      refine ⟨?_, ?_, ?_, ?_⟩
      · intro hlen
        rw [List.getElem?_eq_none hlen]
        simp [mkAyah]
      · intro hlen
        rw [List.getElem?_eq_none hlen]
        simp [mkAyah]
      · intro hlen
        rw [List.getElem?_eq_none hlen]
        simp [mkAyah]
      · intro v' hv' hw
        cases hv'
        simp [mkAyah, wordsEnOf, hw]
  · intro hnone
    rw [ayahs_of_buildSurahData, hnone]
    rfl

/-- Witness for C1 at a concrete input: the Imlaei response lacks its
verse array, the Uthmani and Tajweed arrays are empty (shorter than the
primary array), and the primary verse has no `words` field. -/
theorem c1_witness :
    (buildSurahData "b" chW ⟨some []⟩ ⟨none⟩ ⟨some []⟩ ⟨some [verseW]⟩ ⟨none⟩).ayahs.length = 1
    ∧ (mkAyah verseW none none none none).text_arabic_simple = ""
    ∧ (mkAyah verseW none none none none).text_arabic_uthmani = ""
    ∧ (mkAyah verseW none none none none).text_arabic_tajweed = ""
    ∧ (mkAyah verseW none none none none).words_en = [] := by
  have h := c1_ayah_count_and_defaults "b" chW ⟨some []⟩ ⟨none⟩ ⟨some []⟩
    ⟨some [verseW]⟩ ⟨none⟩
  have h2 := h.2.1 0 (mkAyah verseW none none none none) (by decide)
  exact ⟨h.1.trans (by decide), h2.1 (by decide), h2.2.1 (by decide),
    h2.2.2.1 (by decide), h2.2.2.2 verseW (by decide) (by decide)⟩

/-! ## C2 -/

/-- C2: the aggregator copies identity fields from the primary fragment,
so when the primary verse array is canonical — entry `i` carrying verse
key `"{chapterId}:{i+1}"`, verse number `i+1` and the chapter's `i`-th
global verse id — every aggregated Ayah's `verse_key` equals
`"{chapterId}:{n}"` for its ordinal `n`, the keys enumerate
`n = 1..count` in order, the verse numbers are strictly ascending, and
id and key are re-derivable from the chapter id, the chapter's first
global verse id and the ordinal position. -/
theorem c2_verse_keys_canonical (baseUrl : String) (chapter : Chapter)
    (u : UthmaniResponse) (im : ImlaeiResponse) (t : TajweedResponse)
    (vE vI : VersesResponse) (idBase : Nat)
    (hkey : ∀ i v, (vE.verses.getD [])[i]? = some v →
      v.verse_key = toString chapter.id ++ ":" ++ toString (i + 1))
    (hnum : ∀ i v, (vE.verses.getD [])[i]? = some v → v.verse_number = i + 1)
    (hid : ∀ i v, (vE.verses.getD [])[i]? = some v → v.id = idBase + i) :
    (∀ i a, (buildSurahData baseUrl chapter u im t vE vI).ayahs[i]? = some a →
      a.verse_key = toString chapter.id ++ ":" ++ toString (i + 1)
      ∧ a.verse_number = i + 1 ∧ a.id = idBase + i)
    ∧ (buildSurahData baseUrl chapter u im t vE vI).ayahs.map
        (fun a => a.verse_key) =
      (List.range (vE.verses.getD []).length).map
        (fun k => toString chapter.id ++ ":" ++ toString (k + 1))
    ∧ List.Pairwise (fun m n => m < n)
        ((buildSurahData baseUrl chapter u im t vE vI).ayahs.map
          (fun a => a.verse_number)) := by
  have key : ∀ i a, (buildSurahData baseUrl chapter u im t vE vI).ayahs[i]? = some a →
      a.verse_key = toString chapter.id ++ ":" ++ toString (i + 1)
      ∧ a.verse_number = i + 1 ∧ a.id = idBase + i := by
    intro i a ha
    rw [ayahs_of_buildSurahData, buildAyahs_getElem?] at ha
    rcases hvE : (vE.verses.getD [])[i]? with _ | v
    · rw [hvE] at ha; simp at ha
    · rw [hvE] at ha
      simp only [Option.map_some', Option.some.injEq] at ha
      subst ha
      exact ⟨hkey i v hvE, hnum i v hvE, hid i v hvE⟩
  have hnums : (buildSurahData baseUrl chapter u im t vE vI).ayahs.map
      (fun a => a.verse_number) =
      (List.range (vE.verses.getD []).length).map (fun k => k + 1) := by
    apply List.ext_getElem?
    intro i
    rw [List.getElem?_map, List.getElem?_map, ayahs_of_buildSurahData,
      buildAyahs_getElem?]
    rcases hvE : (vE.verses.getD [])[i]? with _ | v
    · have hlen : (vE.verses.getD []).length ≤ i := List.getElem?_eq_none_iff.mp hvE
      have hr : (List.range (vE.verses.getD []).length)[i]? = none :=
        List.getElem?_eq_none (by simpa using hlen)
      rw [hr]; rfl
    · have hlt : i < (vE.verses.getD []).length := (List.getElem?_eq_some.mp hvE).1
      have hr : (List.range (vE.verses.getD []).length)[i]? = some i := by
        rw [List.getElem?_eq_getElem (by simpa using hlt)]; simp
      rw [hr]
      simpa [mkAyah] using hnum i v hvE
  refine ⟨key, ?_, ?_⟩
  · apply List.ext_getElem?
    intro i
    rw [List.getElem?_map, List.getElem?_map, ayahs_of_buildSurahData,
      buildAyahs_getElem?]
    rcases hvE : (vE.verses.getD [])[i]? with _ | v
    · have hlen : (vE.verses.getD []).length ≤ i := List.getElem?_eq_none_iff.mp hvE
      have hr : (List.range (vE.verses.getD []).length)[i]? = none :=
        List.getElem?_eq_none (by simpa using hlen)
      rw [hr]; rfl
    · have hlt : i < (vE.verses.getD []).length := (List.getElem?_eq_some.mp hvE).1
      have hr : (List.range (vE.verses.getD []).length)[i]? = some i := by
        rw [List.getElem?_eq_getElem (by simpa using hlt)]; simp
      rw [hr]
      simpa [mkAyah] using hkey i v hvE
  · rw [hnums]
    refine List.Pairwise.map _ (fun a b hab => ?_) (List.pairwise_lt_range _)
    exact Nat.succ_lt_succ hab

/-- Witness for C2: a canonical two-verse primary array yields keys
`"1:1", "1:2"` and ascending verse numbers. -/
theorem c2_witness :
    (∀ i v, ((⟨some [{ verseW with id := 10, verse_number := 1, verse_key := "1:1" },
        { verseW with id := 11, verse_number := 2, verse_key := "1:2" }]⟩ :
        VersesResponse).verses.getD [])[i]? = some v →
      v.verse_key = toString chW.id ++ ":" ++ toString (i + 1))
    ∧ (buildSurahData "b" chW ⟨none⟩ ⟨none⟩ ⟨none⟩
        ⟨some [{ verseW with id := 10, verse_number := 1, verse_key := "1:1" },
          { verseW with id := 11, verse_number := 2, verse_key := "1:2" }]⟩
        ⟨none⟩).ayahs.map (fun a => a.verse_key) =
      (List.range 2).map (fun k => toString chW.id ++ ":" ++ toString (k + 1)) := by
  have hkey : ∀ i v, (((⟨some [{ verseW with id := 10, verse_number := 1, verse_key := "1:1" },
      { verseW with id := 11, verse_number := 2, verse_key := "1:2" }]⟩ :
      VersesResponse)).verses.getD [])[i]? = some v →
      v.verse_key = toString chW.id ++ ":" ++ toString (i + 1) := by
    intro i v hv
    match i, hv with
    | 0, hv => cases hv; decide
    | 1, hv => cases hv; decide
  have h := c2_verse_keys_canonical "b" chW ⟨none⟩ ⟨none⟩ ⟨none⟩
    ⟨some [{ verseW with id := 10, verse_number := 1, verse_key := "1:1" },
      { verseW with id := 11, verse_number := 2, verse_key := "1:2" }]⟩
    ⟨none⟩ 10 hkey
    (by intro i v hv; match i, hv with
        | 0, hv => cases hv; decide
        | 1, hv => cases hv; decide)
    (by intro i v hv; match i, hv with
        | 0, hv => cases hv; decide
        | 1, hv => cases hv; decide)
  exact ⟨hkey, h.2.1⟩

/-! ## C3 -/

theorem wordsIdOf_eq_wordsEnOf (v : ApiVerse)
    (h : ∀ w ∈ v.words.getD [], wordLangName w ≠ some "indonesian") :
    wordsIdOf v = wordsEnOf v := by
  unfold wordsIdOf wordsEnOf
  apply List.map_congr_left
  intro w hw
  have hne := h w (List.mem_of_mem_filter hw)
  simp [mkWordSegId, mkWordSegEn, hne]

/-- C3: for every index `i` of the primary ("en") verse array, the
aggregated `words.id` is built from the "id" verse at index `i` when
that array has one, and otherwise from the primary verse at index `i`
(silent fallback, no error); in the fallback case the data stored under
the Indonesian key is drawn from the language-A verse, and (whenever
that verse's word metadata does not name "indonesian", which is what the
English-requested fragment carries) it coincides with `words.en`
verbatim. -/
theorem c3_verses_id_fallback (baseUrl : String) (chapter : Chapter)
    (u : UthmaniResponse) (im : ImlaeiResponse) (t : TajweedResponse)
    (vE vI : VersesResponse) :
    ∀ (i : Nat) (ve : ApiVerse) (a : Ayah), (vE.verses.getD [])[i]? = some ve →
      (buildSurahData baseUrl chapter u im t vE vI).ayahs[i]? = some a →
      (∀ v, (vI.verses.getD [])[i]? = some v → a.words_id = wordsIdOf v)
      ∧ ((vI.verses.getD [])[i]? = none →
          a.words_id = wordsIdOf ve
          ∧ ((∀ w ∈ ve.words.getD [], wordLangName w ≠ some "indonesian") →
              a.words_id = a.words_en)) := by
  intro i ve a hvE ha
  rw [ayahs_of_buildSurahData, buildAyahs_getElem?, hvE] at ha
  simp only [Option.map_some', Option.some.injEq] at ha
  subst ha
  constructor
  · intro v hv
    rw [hv]
    simp [mkAyah]
  · intro hnone
    rw [hnone]
    refine ⟨by simp [mkAyah], fun hw => ?_⟩
    simp only [mkAyah, Option.getD_none]
    exact wordsIdOf_eq_wordsEnOf ve hw

/-- A typical word token whose translation metadata names English. -/
def wordEnW : ApiWord :=
  { position := 1, char_type_name := "word", code_v1 := some "cc"
    text := some "tt", audio_url := some "au"
    translation := some { text := some "the", language_name := some "english" }
    transliteration := some { text := some "tr" } }

/-- A primary verse carrying one word token. -/
def verseWordsW : ApiVerse := { verseW with words := some [wordEnW] }

/-- Witness for C3: a two-verse primary array against a one-verse "id"
array; index 0 uses the "id" verse, index 1 falls back to the primary
verse and its `words.id` equals `words.en`. -/
theorem c3_witness :
    (mkAyah verseW (some verseWordsW) none none none).words_id = wordsIdOf verseWordsW
    ∧ (mkAyah verseWordsW none none none none).words_id = wordsIdOf verseWordsW
    ∧ (mkAyah verseWordsW none none none none).words_id =
        (mkAyah verseWordsW none none none none).words_en := by
  have h0 := c3_verses_id_fallback "b" chW ⟨none⟩ ⟨none⟩ ⟨none⟩
    ⟨some [verseW, verseWordsW]⟩ ⟨some [verseWordsW]⟩ 0 verseW
    (mkAyah verseW (some verseWordsW) none none none) (by decide) (by decide)
  have h1 := c3_verses_id_fallback "b" chW ⟨none⟩ ⟨none⟩ ⟨none⟩
    ⟨some [verseW, verseWordsW]⟩ ⟨some [verseWordsW]⟩ 1 verseWordsW
    (mkAyah verseWordsW none none none none) (by decide) (by decide)
  have h1f := h1.2 (by decide)
  exact ⟨h0.1 verseWordsW (by decide), h1f.1, h1f.2 (by decide)⟩

/-! ## C4 -/

/-- C4: for every verse fragment mixing word-tagged and non-word-tagged
tokens, the resulting `words.en` and `words.id` lists are exactly the
image of the tokens whose `char_type_name` is `"word"`, in original
order, and every element of those lists comes from such a token — no
punctuation or pause-marker token ever appears. -/
theorem c4_word_token_filtering (baseUrl : String) (chapter : Chapter)
    (u : UthmaniResponse) (im : ImlaeiResponse) (t : TajweedResponse)
    (vE vI : VersesResponse) :
    ∀ (i : Nat) (ve : ApiVerse) (a : Ayah), (vE.verses.getD [])[i]? = some ve →
      (buildSurahData baseUrl chapter u im t vE vI).ayahs[i]? = some a →
      a.words_en = ((ve.words.getD []).filter
          (fun w => w.char_type_name == "word")).map mkWordSegEn
      ∧ a.words_id = (((((vI.verses.getD [])[i]?).getD ve).words.getD []).filter
          (fun w => w.char_type_name == "word")).map mkWordSegId
      ∧ (∀ s ∈ a.words_en, ∃ w ∈ ve.words.getD [],
          w.char_type_name = "word" ∧ s = mkWordSegEn w)
      ∧ (∀ s ∈ a.words_id, ∃ w ∈ (((vI.verses.getD [])[i]?).getD ve).words.getD [],
          w.char_type_name = "word" ∧ s = mkWordSegId w) := by
  intro i ve a hvE ha
  rw [ayahs_of_buildSurahData, buildAyahs_getElem?, hvE] at ha
  simp only [Option.map_some', Option.some.injEq] at ha
  subst ha
  refine ⟨rfl, rfl, ?_, ?_⟩
  · intro s hs
    simp only [mkAyah, wordsEnOf, List.mem_map, List.mem_filter] at hs
    rcases hs with ⟨w, ⟨hwmem, hwtype⟩, hseq⟩
    exact ⟨w, hwmem, by simpa using hwtype, hseq.symm⟩
  · intro s hs
    simp only [mkAyah, wordsIdOf, List.mem_map, List.mem_filter] at hs
    rcases hs with ⟨w, ⟨hwmem, hwtype⟩, hseq⟩
    exact ⟨w, hwmem, by simpa using hwtype, hseq.symm⟩

/-- A punctuation token (`char_type_name` is `"end"`), never retained. -/
def wordEndW : ApiWord :=
  { position := 2, char_type_name := "end", code_v1 := none
    text := some "۝", audio_url := none, translation := none
    transliteration := none }

/-- A verse mixing a word token and a punctuation token. -/
def verseMixedW : ApiVerse := { verseW with words := some [wordEnW, wordEndW] }

/-- Witness for C4: from a mixed fragment only the word token survives,
in both word lists. -/
theorem c4_witness :
    (mkAyah verseMixedW none none none none).words_en = [mkWordSegEn wordEnW]
    ∧ (mkAyah verseMixedW none none none none).words_id = [mkWordSegId wordEnW] := by
  have h := c4_word_token_filtering "b" chW ⟨none⟩ ⟨none⟩ ⟨none⟩
    ⟨some [verseMixedW]⟩ ⟨none⟩ 0 verseMixedW
    (mkAyah verseMixedW none none none none) (by decide) (by decide)
  exact ⟨h.1.trans (by decide), h.2.1.trans (by decide)⟩

/-! ## C5 -/

/-- C5: a language-B word segment carries translation language tag
`"id"` exactly when the word's own `language_name` metadata is
`"indonesian"`; in every other case (including absent metadata) the tag
is `"en"`, and every tag in an aggregated `words.id` list is one of the
two. -/
theorem c5_id_language_tag (baseUrl : String) (chapter : Chapter)
    (u : UthmaniResponse) (im : ImlaeiResponse) (t : TajweedResponse)
    (vE vI : VersesResponse) :
    (∀ w : ApiWord,
      ((mkWordSegId w).translation.language = "id" ↔
        wordLangName w = some "indonesian")
      ∧ (wordLangName w ≠ some "indonesian" →
        (mkWordSegId w).translation.language = "en"))
    ∧ (∀ (i : Nat) (a : Ayah), (buildSurahData baseUrl chapter u im t vE vI).ayahs[i]? = some a →
        ∀ s ∈ a.words_id,
          s.translation.language = "id" ∨ s.translation.language = "en") := by
  constructor
  · intro w
    by_cases hl : wordLangName w = some "indonesian"
    · simp [mkWordSegId, hl]
    · constructor
      · rw [iff_false_intro hl]
        simp [mkWordSegId, hl]
      · intro _
        simp [mkWordSegId, hl]
  · intro i a ha s hs
    rw [ayahs_of_buildSurahData, buildAyahs_getElem?] at ha
    rcases hvE : (vE.verses.getD [])[i]? with _ | v
    · rw [hvE] at ha; simp at ha
    · rw [hvE] at ha
      simp only [Option.map_some', Option.some.injEq] at ha
      subst ha
      simp only [mkAyah, wordsIdOf, List.mem_map] at hs
      rcases hs with ⟨w, _, hseq⟩
      subst hseq
      by_cases hl : wordLangName w = some "indonesian"
      · left; simp [mkWordSegId, hl]
      · right; simp [mkWordSegId, hl]

/-- A word token whose translation metadata names Indonesian. -/
def wordIdW : ApiWord :=
  { wordEnW with
    translation := some { text := some "itu", language_name := some "indonesian" } }

/-- Witness for C5: an "indonesian"-tagged word maps to tag `"id"`, a
word with other (or absent) metadata maps to `"en"`. -/
theorem c5_witness :
    (mkWordSegId wordIdW).translation.language = "id"
    ∧ (mkWordSegId wordEnW).translation.language = "en"
    ∧ (mkWordSegId wordEndW).translation.language = "en" := by
  have h := c5_id_language_tag "b" chW ⟨none⟩ ⟨none⟩ ⟨none⟩ ⟨none⟩ ⟨none⟩
  exact ⟨(h.1 wordIdW).1.mpr (by decide), (h.1 wordEnW).2 (by decide),
    (h.1 wordEndW).2 (by decide)⟩

/-! ## C6 -/

/-- C6: `translations.en` is the text of the first entry of the primary
verse's translation list whose resource id is 20, and `translations.id`
the text of the first entry whose resource id is 33; with no matching
entry the field is the empty string. -/
theorem c6_translation_extraction (baseUrl : String) (chapter : Chapter)
    (u : UthmaniResponse) (im : ImlaeiResponse) (t : TajweedResponse)
    (vE vI : VersesResponse) :
    ∀ (i : Nat) (ve : ApiVerse) (a : Ayah), (vE.verses.getD [])[i]? = some ve →
      (buildSurahData baseUrl chapter u im t vE vI).ayahs[i]? = some a →
      ((∀ e ∈ ve.translations.getD [], e.resource_id ≠ 20) →
        a.translations_en = "")
      ∧ (∀ (l₁ : List TranslationEntry) (e : TranslationEntry) (l₂ : List TranslationEntry),
          ve.translations.getD [] = l₁ ++ e :: l₂ →
          e.resource_id = 20 → (∀ x ∈ l₁, x.resource_id ≠ 20) →
          a.translations_en = e.text)
      ∧ ((∀ e ∈ ve.translations.getD [], e.resource_id ≠ 33) →
        a.translations_id = "")
      ∧ (∀ (l₁ : List TranslationEntry) (e : TranslationEntry) (l₂ : List TranslationEntry),
          ve.translations.getD [] = l₁ ++ e :: l₂ →
          e.resource_id = 33 → (∀ x ∈ l₁, x.resource_id ≠ 33) →
          a.translations_id = e.text) := by
  intro i ve a hvE ha
  rw [ayahs_of_buildSurahData, buildAyahs_getElem?, hvE] at ha
  simp only [Option.map_some', Option.some.injEq] at ha
  subst ha
  refine ⟨?_, ?_, ?_, ?_⟩
  · intro hnone
    have : findTranslation ve TRANSLATION_IDS.english = none := by
      rw [findTranslation, List.find?_eq_none]
      intro x hx
      simp [TRANSLATION_IDS, hnone x hx]
    simp [mkAyah, this]
  · intro l₁ e l₂ hsplit he hfirst
    have : findTranslation ve TRANSLATION_IDS.english = some e := by
      rw [findTranslation, hsplit]
      exact find?_of_first _ l₁ e l₂
        (fun x hx => by simp [TRANSLATION_IDS, hfirst x hx])
        (by simp [TRANSLATION_IDS, he])
    simp [mkAyah, this]
  · intro hnone
    have : findTranslation ve TRANSLATION_IDS.indonesian = none := by
      rw [findTranslation, List.find?_eq_none]
      intro x hx
      simp [TRANSLATION_IDS, hnone x hx]
    simp [mkAyah, this]
  · intro l₁ e l₂ hsplit he hfirst
    have : findTranslation ve TRANSLATION_IDS.indonesian = some e := by
      rw [findTranslation, hsplit]
      exact find?_of_first _ l₁ e l₂
        (fun x hx => by simp [TRANSLATION_IDS, hfirst x hx])
        (by simp [TRANSLATION_IDS, he])
    simp [mkAyah, this]

/-- A primary verse whose translation list holds resource 33 then two
resource-20 entries (the first must win) and a stray resource id. -/
def verseTransW : ApiVerse :=
  { verseW with translations := some (
      [{ resource_id := 33, text := "indo" },
       { resource_id := 20, text := "first-en" },
       { resource_id := 20, text := "second-en" },
       { resource_id := 131, text := "other" }]) }

/-- Witness for C6: the first resource-20 entry supplies
`translations.en`, the resource-33 entry supplies `translations.id`, and
a verse with no translation list yields empty strings. -/
theorem c6_witness :
    (mkAyah verseTransW none none none none).translations_en = "first-en"
    ∧ (mkAyah verseTransW none none none none).translations_id = "indo"
    ∧ (mkAyah verseW none none none none).translations_en = ""
    ∧ (mkAyah verseW none none none none).translations_id = "" := by
  have h := c6_translation_extraction "b" chW ⟨none⟩ ⟨none⟩ ⟨none⟩
    ⟨some [verseTransW]⟩ ⟨none⟩ 0 verseTransW
    (mkAyah verseTransW none none none none) (by decide) (by decide)
  have h0 := c6_translation_extraction "b" chW ⟨none⟩ ⟨none⟩ ⟨none⟩
    ⟨some [verseW]⟩ ⟨none⟩ 0 verseW
    (mkAyah verseW none none none none) (by decide) (by decide)
  refine ⟨?_, ?_, ?_, ?_⟩
  · exact h.2.1 [{ resource_id := 33, text := "indo" }]
      { resource_id := 20, text := "first-en" }
      [{ resource_id := 20, text := "second-en" },
       { resource_id := 131, text := "other" }] (by decide) (by decide)
      (by intro x hx; fin_cases hx <;> decide)
  · exact h.2.2.2 [] { resource_id := 33, text := "indo" }
      [{ resource_id := 20, text := "first-en" },
       { resource_id := 20, text := "second-en" },
       { resource_id := 131, text := "other" }] (by decide) (by decide)
      (by intro x hx; simp at hx)
  · exact h0.1 (by intro e he; simp [verseW] at he)
  · exact h0.2.2.1 (by intro e he; simp [verseW] at he)

/-! ## C7 -/

/-- The no-adjacent-hyphens relation established by the hyphen-run
collapse. -/
def NoDoubleDash (a b : Char) : Prop := ¬(a = '-' ∧ b = '-')

theorem noDoubleDash_symm : ∀ a b, NoDoubleDash a b → NoDoubleDash b a := by
  intro a b hab hc
  exact hab ⟨hc.2, hc.1⟩

theorem chain_reverse_of_chain {l : List Char} (h : l.Chain' NoDoubleDash) :
    l.reverse.Chain' NoDoubleDash := by
  rw [List.chain'_reverse]
  exact h.imp (fun a b hab => noDoubleDash_symm a b hab)

theorem collapseDashes_cons (rest : List Char) :
    ∀ c, ∃ tl, collapseDashes (c :: rest) = c :: tl := by
  induction rest with
  | nil => intro c; exact ⟨[], rfl⟩
  | cons d rest ih =>
    intro c
    by_cases h : c = '-' && d = '-'
    · obtain ⟨tl, htl⟩ := ih d
      refine ⟨tl, ?_⟩
      rw [collapseDashes, if_pos h, htl]
      simp only [Bool.and_eq_true, decide_eq_true_eq] at h
      rw [h.1, h.2]
    · exact ⟨collapseDashes (d :: rest), by rw [collapseDashes, if_neg h]⟩

theorem collapseDashes_mem (cs : List Char) : ∀ x ∈ collapseDashes cs, x ∈ cs := by
  induction cs using collapseDashes.induct with
  | case1 => intro x hx; simp [collapseDashes] at hx
  | case2 c => intro x hx; simpa [collapseDashes] using hx
  | case3 c d rest h ih =>
    intro x hx
    rw [collapseDashes, if_pos h] at hx
    exact List.mem_cons_of_mem _ (ih x hx)
  | case4 c d rest h ih =>
    intro x hx
    rw [collapseDashes, if_neg h] at hx
    rcases List.mem_cons.mp hx with h1 | h2
    · exact h1 ▸ List.mem_cons_self _ _
    · exact List.mem_cons_of_mem _ (ih x h2)

theorem collapseDashes_chain (cs : List Char) :
    (collapseDashes cs).Chain' NoDoubleDash := by
  induction cs using collapseDashes.induct with
  | case1 => simp [collapseDashes]
  | case2 c => simp [collapseDashes]
  | case3 c d rest h ih => rw [collapseDashes, if_pos h]; exact ih
  | case4 c d rest h ih =>
    rw [collapseDashes, if_neg h]
    obtain ⟨tl, htl⟩ := collapseDashes_cons rest d
    rw [htl]
    rw [htl] at ih
    refine List.chain'_cons.mpr ⟨?_, ih⟩
    intro hc
    exact h (by simp [hc.1, hc.2])

theorem dropLeadingDash_mem (cs : List Char) :
    ∀ x ∈ dropLeadingDash cs, x ∈ cs := by
  intro x hx
  cases cs with
  | nil => simpa [dropLeadingDash] using hx
  | cons c rest =>
    rw [dropLeadingDash] at hx
    by_cases hc : c = '-'
    · rw [if_pos hc] at hx
      exact List.mem_cons_of_mem _ hx
    · rwa [if_neg hc] at hx

theorem dropLeadingDash_chain {cs : List Char} (h : cs.Chain' NoDoubleDash) :
    (dropLeadingDash cs).Chain' NoDoubleDash := by
  cases cs with
  | nil => simp [dropLeadingDash]
  | cons c rest =>
    rw [dropLeadingDash]
    by_cases hc : c = '-'
    · rw [if_pos hc]
      exact (List.chain'_cons'.mp h).2
    · rwa [if_neg hc]

theorem dropLeadingDash_head {cs : List Char} (h : cs.Chain' NoDoubleDash) :
    (dropLeadingDash cs).head? ≠ some '-' := by
  cases cs with
  | nil => simp [dropLeadingDash]
  | cons c rest =>
    rw [dropLeadingDash]
    by_cases hc : c = '-'
    · rw [if_pos hc]
      intro hhead
      cases rest with
      | nil => simp at hhead
      | cons r rs =>
        simp only [List.head?_cons, Option.some.injEq] at hhead
        exact (List.chain'_cons'.mp h).1 r rfl ⟨hc, hhead⟩
    · rw [if_neg hc]
      simpa using hc

theorem dropLeadingDash_getLast {cs : List Char} (hchain : cs.Chain' NoDoubleDash)
    (hlast : cs.getLast? ≠ some '-') :
    (dropLeadingDash cs).getLast? ≠ some '-' := by
  cases cs with
  | nil => simp [dropLeadingDash]
  | cons c rest =>
    rw [dropLeadingDash]
    by_cases hc : c = '-'
    · rw [if_pos hc]
      cases rest with
      | nil => simp
      | cons r rs => rwa [List.getLast?_cons_cons] at hlast
    · rwa [if_neg hc]

theorem trimDashes_mem (cs : List Char) : ∀ x ∈ trimDashes cs, x ∈ cs := by
  intro x hx
  rw [trimDashes] at hx
  have h1 := dropLeadingDash_mem _ x (List.mem_reverse.mp hx)
  exact dropLeadingDash_mem _ x (List.mem_reverse.mp h1)

theorem trimDashes_chain {cs : List Char} (h : cs.Chain' NoDoubleDash) :
    (trimDashes cs).Chain' NoDoubleDash := by
  rw [trimDashes]
  exact chain_reverse_of_chain
    (dropLeadingDash_chain (chain_reverse_of_chain (dropLeadingDash_chain h)))

theorem trimDashes_head {cs : List Char} (h : cs.Chain' NoDoubleDash) :
    (trimDashes cs).head? ≠ some '-' := by
  rw [trimDashes, List.head?_reverse]
  refine dropLeadingDash_getLast (chain_reverse_of_chain (dropLeadingDash_chain h)) ?_
  rw [← List.head?_reverse, List.reverse_reverse]
  exact dropLeadingDash_head h

theorem trimDashes_getLast {cs : List Char} (h : cs.Chain' NoDoubleDash) :
    (trimDashes cs).getLast? ≠ some '-' := by
  rw [trimDashes, ← List.head?_reverse, List.reverse_reverse]
  exact dropLeadingDash_head (chain_reverse_of_chain (dropLeadingDash_chain h))

/-- C7: the output filename is the chapter id zero-padded to three
digits, a hyphen, the slug of the simple name, then `.json`; the slug
lower-cases and keeps only `a-z0-9` characters, every run of other
characters becoming a single hyphen (so the slug has no adjacent and no
leading or trailing hyphens); chapter 1 named "Al-Fatihah" yields
`001-al-fatihah.json` and chapter 114 always yields a `114-` prefix. -/
theorem c7_filename_shape :
    surahFilename 1 "Al-Fatihah" = "001-al-fatihah.json"
    ∧ (∀ name : String, ∃ rest : String,
        surahFilename 114 name = "114-" ++ rest)
    ∧ (∀ name : String, ∀ c ∈ (sanitizeFilename name).data,
        c = '-' ∨ isSlugChar c = true)
    ∧ (∀ name : String,
        (sanitizeFilename name).data.Chain' NoDoubleDash)
    ∧ (∀ name : String, (sanitizeFilename name).data.head? ≠ some '-'
        ∧ (sanitizeFilename name).data.getLast? ≠ some '-') := by
  refine ⟨by decide, ?_, ?_, ?_, ?_⟩
  · intro name
    refine ⟨sanitizeFilename name ++ ".json", ?_⟩
    show padStart (toString (114 : Nat)) 3 '0' ++ "-" ++
      sanitizeFilename name ++ ".json" = "114-" ++ (sanitizeFilename name ++ ".json")
    rw [String.append_assoc, String.append_assoc]
    rfl
  · intro name c hc
    have h1 := trimDashes_mem _ c hc
    have h2 := collapseDashes_mem _ c h1
    have h3 : c ∈ (jsToLower name).data.map
        (fun x => if isSlugChar x then x else '-') := h2
    rcases List.mem_map.mp h3 with ⟨x, _, hx⟩
    by_cases hs : isSlugChar x
    · right; rw [← hx, if_pos hs]; exact hs
    · left; rw [← hx, if_neg hs]
  · intro name
    exact trimDashes_chain (collapseDashes_chain _)
  · intro name
    exact ⟨trimDashes_head (collapseDashes_chain _),
      trimDashes_getLast (collapseDashes_chain _)⟩

/-- Witness for C7: a name full of punctuation and mixed case sanitizes
to a clean slug, and its characters satisfy the slug character set. -/
theorem c7_witness :
    surahFilename 114 "An-Nās" = "114-" ++ "an-n-s.json"
    ∧ ('a' ∈ (sanitizeFilename "**Al-Fatihah!!").data)
    ∧ ('a' = '-' ∨ isSlugChar 'a' = true) := by
  refine ⟨by decide, by decide, ?_⟩
  exact c7_filename_shape.2.2.1 "**Al-Fatihah!!" 'a' (by decide)

/-! ## C8, C9 -/

/-- The error of a failed `Except`, if any. -/
def errValue {E α : Type} : Except E α → Option E
  | .error e => some e
  | .ok _ => none

instance {E α : Type} [DecidableEq E] [DecidableEq α] : DecidableEq (Except E α)
  | .ok a, .ok b =>
    if h : a = b then .isTrue (by rw [h]) else .isFalse (by simp [h])
  | .ok _, .error _ => .isFalse (fun hc => Except.noConfusion hc)
  | .error _, .ok _ => .isFalse (fun hc => Except.noConfusion hc)
  | .error e, .error e' =>
    if h : e = e' then .isTrue (by rw [h]) else .isFalse (by simp [h])

theorem processChapter_ok {E : Type} (api : Api E) (write : WrittenFile → Except E Unit)
    (baseUrl : String) (c : Chapter) (f : WrittenFile)
    (hf : processChapter api write baseUrl c = .ok f) :
    ∃ d, buildSurahDataE api baseUrl c = .ok d
      ∧ f = { chapterId := c.id
              filename := surahFilename c.id c.name_simple
              content := d } := by
  unfold processChapter at hf
  rcases hb : buildSurahDataE api baseUrl c with e | d
  · rw [hb] at hf
    simp [Bind.bind, Except.bind] at hf
  · rw [hb] at hf
    simp only [Bind.bind, Except.bind] at hf
    rcases hw : write { chapterId := c.id, filename := surahFilename c.id c.name_simple, content := d } with e | u
    · rw [hw] at hf
      simp at hf
    · rw [hw] at hf
      simp only [Pure.pure, Except.pure, Except.ok.injEq] at hf
      exact ⟨d, rfl, hf.symm⟩

theorem processChapter_error_of_build {E : Type} (api : Api E)
    (write : WrittenFile → Except E Unit) (baseUrl : String) (c : Chapter)
    (e : E) (hb : buildSurahDataE api baseUrl c = .error e) :
    processChapter api write baseUrl c = .error e := by
  unfold processChapter
  rw [hb]
  rfl

theorem runBatch_files {E : Type} (api : Api E) (write : WrittenFile → Except E Unit)
    (baseUrl : String) (l : List Chapter) :
    (runBatch api write baseUrl l).1 =
      l.filterMap (fun c => (processChapter api write baseUrl c).toOption) := by
  induction l with
  | nil => rfl
  | cons c rest ih =>
    rw [runBatch, List.filterMap_cons]
    cases h : processChapter api write baseUrl c with
    | ok f => simpa [Except.toOption, h] using ih
    | error e => simpa [Except.toOption, h] using ih

theorem runBatch_errors {E : Type} (api : Api E) (write : WrittenFile → Except E Unit)
    (baseUrl : String) (l : List Chapter) :
    (runBatch api write baseUrl l).2 =
      l.filterMap (fun c => errValue (processChapter api write baseUrl c)) := by
  induction l with
  | nil => rfl
  | cons c rest ih =>
    rw [runBatch, List.filterMap_cons]
    cases h : processChapter api write baseUrl c with
    | ok f => simpa [errValue, h] using ih
    | error e => simpa [errValue, h] using ih

theorem runBatch_ids_sublist {E : Type} (api : Api E) (write : WrittenFile → Except E Unit)
    (baseUrl : String) (l : List Chapter) :
    ((runBatch api write baseUrl l).1.map (fun f => f.chapterId)).Sublist
      (l.map (fun c => c.id)) := by
  induction l with
  | nil => simp [runBatch]
  | cons c rest ih =>
    rw [runBatch]
    cases h : processChapter api write baseUrl c with
    | ok f =>
      obtain ⟨d, _, hfeq⟩ := processChapter_ok api write baseUrl c f h
      simp only [List.map_cons]
      have hid : f.chapterId = c.id := by rw [hfeq]
      rw [hid]
      exact ih.cons₂ _
    | error e =>
      simp only [List.map_cons]
      exact ih.cons _

/-- C8: a ranged batch over the closed interval `[startFrom, endAt]`
writes exactly the files of the in-range chapters whose
aggregate-and-write step succeeds and records exactly the errors of the
ones that fail — an error in one chapter never removes another chapter's
file; with the chapter list ascending by id, the written files are in
ascending chapter-id order; and the batch is a total function that
returns (never raises) the per-chapter errors. -/
theorem c8_fault_isolation {E : Type} (api : Api E)
    (write : WrittenFile → Except E Unit) (baseUrl : String)
    (chapters : List Chapter) (startFrom endAt : Nat)
    (hsorted : chapters.Pairwise (fun a b => a.id < b.id)) :
    (downloadAllSurahs api write baseUrl chapters startFrom endAt).1 =
      (chapters.filter (fun c => decide (startFrom ≤ c.id) && decide (c.id ≤ endAt))).filterMap
        (fun c => (processChapter api write baseUrl c).toOption)
    ∧ (downloadAllSurahs api write baseUrl chapters startFrom endAt).2 =
      (chapters.filter (fun c => decide (startFrom ≤ c.id) && decide (c.id ≤ endAt))).filterMap
        (fun c => errValue (processChapter api write baseUrl c))
    ∧ ((downloadAllSurahs api write baseUrl chapters startFrom endAt).1.map
        (fun f => f.chapterId)).Pairwise (fun m n => m < n)
    ∧ (∀ c ∈ chapters, startFrom ≤ c.id → c.id ≤ endAt →
        (∀ f, processChapter api write baseUrl c = .ok f →
          f ∈ (downloadAllSurahs api write baseUrl chapters startFrom endAt).1)
        ∧ (∀ e, processChapter api write baseUrl c = .error e →
          e ∈ (downloadAllSurahs api write baseUrl chapters startFrom endAt).2)) := by
  refine ⟨runBatch_files api write baseUrl _, runBatch_errors api write baseUrl _,
    ?_, ?_⟩
  · have hfil : ((chapters.filter
        (fun c => decide (startFrom ≤ c.id) && decide (c.id ≤ endAt))).map
        (fun c => c.id)).Pairwise (fun m n => m < n) :=
      List.pairwise_map.mpr (hsorted.filter _)
    exact hfil.sublist (runBatch_ids_sublist api write baseUrl _)
  · intro c hc hlo hhi
    have hmem : c ∈ chapters.filter
        (fun c => decide (startFrom ≤ c.id) && decide (c.id ≤ endAt)) := by
      rw [List.mem_filter]
      exact ⟨hc, by simp [hlo, hhi]⟩
    constructor
    · intro f hf
      rw [show (downloadAllSurahs api write baseUrl chapters startFrom endAt).1 =
        _ from runBatch_files api write baseUrl _]
      exact List.mem_filterMap.mpr ⟨c, hmem, by rw [hf]; rfl⟩
    · intro e he
      rw [show (downloadAllSurahs api write baseUrl chapters startFrom endAt).2 =
        _ from runBatch_errors api write baseUrl _]
      exact List.mem_filterMap.mpr ⟨c, hmem, by rw [he]; rfl⟩

/-- Second and third chapters for the batch fixtures. -/
def chB : Chapter := { chW with id := 2, name_simple := "Al-Baqarah" }

def chC : Chapter := { chW with id := 3, name_simple := "Ali Imran" }

/-- An API oracle whose word-language-"en" endpoint fails for chapter 2
and succeeds elsewhere. -/
def apiW : Api String :=
  { uthmani := fun _ => .ok ⟨none⟩
    imlaei := fun _ => .ok ⟨none⟩
    tajweed := fun _ => .ok ⟨none⟩
    versesEn := fun cid => if cid = 2 then .error "mid" else .ok ⟨some [verseW]⟩
    versesId := fun _ => .ok ⟨none⟩ }

/-- A write oracle that always succeeds. -/
def writeOkW : WrittenFile → Except String Unit := fun _ => .ok ()

/-- Witness for C8: over chapters 1..3 with the middle aggregation
failing, the batch still writes files for chapters 1 and 3 (in order)
and reports the middle error. -/
theorem c8_witness :
    List.Pairwise (fun a b => a.id < b.id) [chW, chB, chC]
    ∧ (downloadAllSurahs apiW writeOkW "b" [chW, chB, chC] 1 3).1.map
        (fun f => f.chapterId) = [1, 3]
    ∧ (downloadAllSurahs apiW writeOkW "b" [chW, chB, chC] 1 3).2 = ["mid"] := by
  have hsorted : List.Pairwise (fun a b : Chapter => a.id < b.id) [chW, chB, chC] := by
    simp [List.pairwise_cons, chW, chB, chC]
  have h := c8_fault_isolation apiW writeOkW "b" [chW, chB, chC] 1 3 hsorted
  refine ⟨hsorted, ?_, ?_⟩
  · rw [h.1]; decide
  · rw [h.2.1]; decide

/-- C9: a chapter's file is written only after its entire document is
built: in single-chapter mode a failing step yields no file and a
success yields exactly one file holding the complete aggregated
document; and every file a batch writes holds the complete document of
an in-range chapter whose five fetches and aggregation all succeeded. -/
theorem c9_no_partial_writes {E : Type} (api : Api E)
    (write : WrittenFile → Except E Unit) (baseUrl : String) (chapter : Chapter)
    (chapters : List Chapter) (startFrom endAt : Nat) :
    (∀ e, (downloadSurahRun api write baseUrl chapter).2 = .error e →
      (downloadSurahRun api write baseUrl chapter).1 = [])
    ∧ (∀ e, buildSurahDataE api baseUrl chapter = .error e →
      (downloadSurahRun api write baseUrl chapter).1 = [])
    ∧ (∀ f, (downloadSurahRun api write baseUrl chapter).2 = .ok f →
      (downloadSurahRun api write baseUrl chapter).1 = [f]
      ∧ ∃ d, buildSurahDataE api baseUrl chapter = .ok d
        ∧ f = { chapterId := chapter.id
                filename := surahFilename chapter.id chapter.name_simple
                content := d })
    ∧ (∀ f ∈ (downloadAllSurahs api write baseUrl chapters startFrom endAt).1,
      ∃ c ∈ chapters, startFrom ≤ c.id ∧ c.id ≤ endAt
        ∧ ∃ d, buildSurahDataE api baseUrl c = .ok d
          ∧ f = { chapterId := c.id
                  filename := surahFilename c.id c.name_simple
                  content := d }) := by
  refine ⟨?_, ?_, ?_, ?_⟩
  · intro e he
    unfold downloadSurahRun at he ⊢
    cases h : processChapter api write baseUrl chapter with
    | ok f => rw [h] at he; simp at he
    | error e' => rfl
  · intro e he
    unfold downloadSurahRun
    rw [processChapter_error_of_build api write baseUrl chapter e he]
  · intro f hf
    unfold downloadSurahRun at hf ⊢
    cases h : processChapter api write baseUrl chapter with
    | ok f' =>
      rw [h] at hf
      simp only [Except.ok.injEq] at hf
      subst hf
      exact ⟨rfl, processChapter_ok api write baseUrl chapter f' h⟩
    | error e' => rw [h] at hf; simp at hf
  · intro f hf
    rw [show (downloadAllSurahs api write baseUrl chapters startFrom endAt).1 =
      _ from runBatch_files api write baseUrl _] at hf
    rcases List.mem_filterMap.mp hf with ⟨c, hcmem, hsome⟩
    rcases List.mem_filter.mp hcmem with ⟨hcin, hrange⟩
    simp only [Bool.and_eq_true, decide_eq_true_eq] at hrange
    rcases hpc : processChapter api write baseUrl c with e | f'
    · rw [hpc] at hsome; simp [Except.toOption] at hsome
    · rw [hpc] at hsome
      simp only [Except.toOption, Option.some.injEq] at hsome
      subst hsome
      obtain ⟨d, hd, hfeq⟩ := processChapter_ok api write baseUrl c f' hpc
      exact ⟨c, hcin, hrange.1, hrange.2, d, hd, hfeq⟩

/-- Witness for C9: with the failing oracle, chapter 2's single download
writes nothing; chapter 1's succeeds and writes exactly its complete
document. -/
theorem c9_witness :
    (downloadSurahRun apiW writeOkW "b" chB).1 = []
    ∧ (downloadSurahRun apiW writeOkW "b" chW).1 =
      [{ chapterId := chW.id
         filename := surahFilename chW.id chW.name_simple
         content := buildSurahData "b" chW ⟨none⟩ ⟨none⟩ ⟨none⟩ ⟨some [verseW]⟩ ⟨none⟩ }] := by
  have h := c9_no_partial_writes apiW writeOkW "b" chB [] 1 3
  have h1 := c9_no_partial_writes apiW writeOkW "b" chW [] 1 3
  refine ⟨h.2.1 "mid" (by decide), ?_⟩
  have hok := (h1.2.2.1
    { chapterId := chW.id
      filename := surahFilename chW.id chW.name_simple
      content := buildSurahData "b" chW ⟨none⟩ ⟨none⟩ ⟨none⟩ ⟨some [verseW]⟩ ⟨none⟩ }
    (by decide)).1
  exact hok

/-! ## C10 -/

/-- C10: `fetchJSON` never consults the HTTP status code — a response
whose body parses as JSON resolves with the parsed value whatever the
status, and two responses differing only in status behave identically;
it rejects exactly on a transport error (message carrying the URL) or a
parse failure (message carrying the URL and the parse diagnostic). -/
theorem c10_fetch_ignores_status {α : Type} (parse : String → Except String α)
    (url : String) :
    (∀ (r : HttpResponse) (a : α), parse (String.join r.chunks) = .ok a →
      fetchJSON parse url (.response r) = .ok a)
    ∧ (∀ (chunks : List String) (s₁ s₂ : Nat),
      fetchJSON parse url (.response { status := s₁, chunks := chunks }) =
        fetchJSON parse url (.response { status := s₂, chunks := chunks }))
    ∧ (∀ m : String, ∃ msg : String,
      fetchJSON parse url (.transportError m) = .error msg
      ∧ url.data <:+: msg.data)
    ∧ (∀ (r : HttpResponse) (e : String),
      parse (String.join r.chunks) = .error e →
      ∃ msg : String, fetchJSON parse url (.response r) = .error msg
        ∧ url.data <:+: msg.data ∧ e.data <:+: msg.data) := by
  refine ⟨?_, ?_, ?_, ?_⟩
  · intro r a h
    simp only [fetchJSON, h]
  · intro chunks s₁ s₂
    rfl
  · intro m
    refine ⟨"HTTP request failed for " ++ url ++ ": " ++ m, rfl,
      "HTTP request failed for ".data, (": " ++ m).data, ?_⟩
    simp [String.data_append]
  · intro r e h
    refine ⟨"Failed to parse JSON from " ++ url ++ ": " ++ e, ?_, ?_, ?_⟩
    · simp only [fetchJSON, h]
    · exact ⟨"Failed to parse JSON from ".data, (": " ++ e).data, by
        simp [String.data_append]⟩
    · exact ⟨("Failed to parse JSON from " ++ url ++ ": ").data, [], by
        simp [String.data_append]⟩

/-- A concrete parser: accepts exactly the body `"x"`. -/
def parseW : String → Except String Nat :=
  fun s => if s = "x" then .ok 0 else .error "bad"

/-- Witness for C10: a 404 response with a parseable body still resolves,
a 200 and a 500 response with the same body behave identically, and a
transport error rejects with the URL in the message. -/
theorem c10_witness :
    fetchJSON parseW "u" (.response { status := 404, chunks := ["x"] }) = .ok 0
    ∧ fetchJSON parseW "u" (.response { status := 200, chunks := ["x"] }) =
        fetchJSON parseW "u" (.response { status := 500, chunks := ["x"] })
    ∧ ∃ msg : String, fetchJSON parseW "u" (.transportError "refused") = .error msg
        ∧ "u".data <:+: msg.data := by
  have h := c10_fetch_ignores_status parseW "u"
  exact ⟨h.1 { status := 404, chunks := ["x"] } 0 (by decide),
    h.2.1 ["x"] 200 500, h.2.2.1 "refused"⟩

end QuranCLI
